import Mathlib

/-!
Shallow embedding of the habitat `net` component (src/components/net/src/
server.rs and routing.rs): envelopes and reply framing, the dispatcher
worker loop, FNV-1a routing hashes, server registry heartbeats, and the
supervisor's worker-spawn logic, together with theorems settling the
specification's claims about them.
-/

namespace HabitatNet

/-- A ZeroMQ frame (`zmq::Message`): an opaque byte sequence, one byte per
list element. -/
abbrev Frame := List Nat

/-- `MAX_HOPS` from server.rs line 38. -/
def MAX_HOPS : Nat := 8

/-- `PING_INTERVAL` (milliseconds) from server.rs line 36. -/
def PING_INTERVAL : Int := 2000

/-- `SERVER_TTL` (milliseconds) from server.rs line 37. -/
def SERVER_TTL : Int := 6000

/-- Modelled from the spec: the error enum of the net crate (its file
error.rs is not under src/; only the variants `MaxHops` and `Sys` appear in
the included sources). The spec lists the observable error kinds at the
core boundary: TransportFailure, Timeout, MaxHops, ParseFailure, Sys,
DispatchError. -/
inductive NetError where
  | TransportFailure : NetError
  | Timeout : NetError
  | MaxHops : NetError
  | ParseFailure : NetError
  | Sys : NetError
  | DispatchError : NetError
deriving DecidableEq, Repr

/-- Outcome of running a Rust operation: `Ok` / `Err` of its `Result`, or a
panic (`unwrap` on a failing value, out-of-bounds indexing). -/
inductive Outcome (α : Type) where
  | ok : α → Outcome α
  | err : NetError → Outcome α
  | panicked : Outcome α
deriving DecidableEq, Repr

/-- `protocol::net::RouteInfo`: protocol enum value plus optional 64-bit
route hash (external protobuf type, modelled by its two fields used here). -/
structure RouteInfo where
  protocol : Nat
  route_hash : Option Nat
deriving DecidableEq, Repr

/-- Default `RouteInfo` (fresh protobuf message: unset fields). -/
def RouteInfo.new : RouteInfo := { protocol := 0, route_hash := none }

/-- `protocol::net::Msg`: the decoded header object with at least a message
id, a body, and route info (external protobuf type, modelled by the fields
the net crate reads). -/
structure Msg where
  message_id : String
  body : Frame
  route_info : RouteInfo
deriving DecidableEq, Repr

/-- `protocol::net::Msg::new()`: fresh message with unset fields. -/
def Msg.new : Msg := { message_id := "", body := [], route_info := RouteInfo.new }

/-- `Envelope` (server.rs lines 65-69): decoded header `msg`, hop stack
`hops`, and the `started` flag guarding the reply header. -/
structure Envelope where
  msg : Msg
  hops : List Frame
  started : Bool
deriving DecidableEq, Repr

/-- `impl Default for Envelope` (server.rs lines 153-161): empty message,
empty hop stack, `started = false`. -/
def Envelope.default : Envelope :=
  { msg := Msg.new, hops := [], started := false }

/-- `Envelope::new` (server.rs lines 72-77): default envelope with the
given hops and message installed. -/
def Envelope.new (hops : List Frame) (msg : Msg) : Envelope :=
  { Envelope.default with hops := hops, msg := msg }

/-- `Envelope::max_hops` (server.rs lines 95-97): `hops.len() >= MAX_HOPS`. -/
def Envelope.max_hops (e : Envelope) : Bool :=
  decide (e.hops.length ≥ MAX_HOPS)

/-- `Envelope::add_hop` (server.rs lines 79-85): if `max_hops()` return
`Err(MaxHops)` touching nothing, else push the hop and return `Ok`. The
pair carries the (possibly updated) envelope and the error if any. -/
def Envelope.add_hop (e : Envelope) (hop : Frame) : Envelope × Option NetError :=
  if e.max_hops then (e, some NetError.MaxHops)
  else ({ e with hops := e.hops ++ [hop] }, none)

/-- `Envelope::reset` (server.rs lines 134-138): clear `started`, clear the
hop stack, replace the message with a fresh one. -/
def Envelope.reset (_e : Envelope) : Envelope :=
  { started := false, hops := [], msg := Msg.new }

/-- Folding a sequence of `add_hop` calls over an envelope, discarding the
per-call results (the dispatcher's hop-accumulation pattern). -/
def Envelope.addHops (e : Envelope) (hs : List Frame) : Envelope :=
  hs.foldl (fun acc h => (acc.add_hop h).1) e

/-- The reply tag frame `"RP"` (ASCII bytes), sent by `send_header`. -/
def tagRP : Frame := [82, 80]

/-- The request tag frame `"RQ"` (ASCII bytes), sent by `BrokerConn::route`. -/
def tagRQ : Frame := [82, 81]

/-- A socket's outbound log: each sent frame paired with its SNDMORE flag
(`true` when the frame was sent with `zmq::SNDMORE`). -/
abbrev SendLog := List (Frame × Bool)

/-- `Envelope::send_header` (server.rs lines 140-150): when `started` is
false, send every hop with SNDMORE, then one empty delimiter frame with
SNDMORE, then the `"RP"` tag with SNDMORE, and set `started`; otherwise do
nothing. -/
def Envelope.send_header (e : Envelope) (out : SendLog) : Envelope × SendLog :=
  if e.started then (e, out)
  else ({ e with started := true },
        out ++ e.hops.map (fun h => (h, true)) ++ [(([] : Frame), true), (tagRP, true)])

/-- `Envelope::reply` (server.rs lines 111-116): `send_header`, then send
the serialized reply with SNDMORE. The protobuf serialization of the reply
message is abstracted as its byte result `payload`. -/
def Envelope.reply (e : Envelope) (out : SendLog) (payload : Frame) : Envelope × SendLog :=
  let p := e.send_header out
  (p.1, p.2 ++ [(payload, true)])

/-- `Envelope::reply_complete` (server.rs lines 118-127): `send_header`,
then send the serialized reply without SNDMORE (final frame). -/
def Envelope.reply_complete (e : Envelope) (out : SendLog) (payload : Frame) :
    Envelope × SendLog :=
  let p := e.send_header out
  (p.1, p.2 ++ [(payload, false)])

/-! ### Dispatcher worker loop (`Dispatcher::start`, server.rs lines 185-216) -/

/-- Phase of the worker loop: inside the inner `'hops` loop, or about to
receive the body frame (`sock.recv(&mut raw, 0)`). -/
inductive Phase where
  | hops : Phase
  | body : Phase
deriving DecidableEq, Repr

/-- Observable events of one worker loop run: a successful `dispatch` call
(recording the envelope's hop stack and decoded message as handed to the
handler), the `"drop message, too many hops"` warning, and the
`"erorr parsing message"` warning. -/
inductive WorkerEvent where
  | dispatched : List Frame → Msg → WorkerEvent
  | warnedMaxHops : WorkerEvent
  | warnedParse : WorkerEvent
deriving DecidableEq, Repr

/-- `Dispatcher::start`'s nested receive loops (server.rs lines 191-213)
run over a finite inbound frame stream. `parse` abstracts
`parse_from_bytes` on the body frame (`none` = decode failure). In the
`'hops` phase a frame of length 0 ends the hop stack and the next frame is
received as the raw body; a non-empty frame goes through `add_hop`, and on
`MaxHops` the worker warns, resets, and breaks the outer `'recv` loop. In
the body phase a successful parse stores the message and dispatches, a
failure warns; either way the envelope is reset and the loop restarts.
Returns the event list and `true` when the `'recv` loop was exited (socket
closed, worker done) as opposed to exhausting the stream while still
blocked on `recv`. -/
def dispatchLoop (parse : Frame → Option Msg) :
    Envelope → Phase → List Frame → List WorkerEvent × Bool
  | _, _, [] => ([], false)
  | e, Phase.hops, f :: rest =>
    if f.length = 0 then dispatchLoop parse e Phase.body rest
    else
      match e.add_hop f with
      | (e', none) => dispatchLoop parse e' Phase.hops rest
      | (_, some _) => ([WorkerEvent.warnedMaxHops], true)
  | e, Phase.body, raw :: rest =>
    match parse raw with
    | some m =>
      let e' := { e with msg := m }
      let r := dispatchLoop parse e'.reset Phase.hops rest
      (WorkerEvent.dispatched e'.hops e'.msg :: r.1, r.2)
    | none =>
      let r := dispatchLoop parse e.reset Phase.hops rest
      (WorkerEvent.warnedParse :: r.1, r.2)

/-- A full worker run (`Dispatcher::start` after connecting): fresh default
envelope, starting in the hop-reading phase. -/
def dispatcherRun (parse : Frame → Option Msg) (input : List Frame) :
    List WorkerEvent × Bool :=
  dispatchLoop parse Envelope.default Phase.hops input

/-! ### FNV-1a hashing and routing (routing.rs, server.rs `RouteConn`) -/

/-- The 64-bit FNV prime used by the `fnv` crate. -/
def fnvPrime : Nat := 1099511628211

/-- The 64-bit FNV offset basis: the state of `FnvHasher::default()`. -/
def fnvOffsetBasis : Nat := 14695981039346656037

/-- One byte step of FNV-1a-64 as implemented by the `fnv` crate:
xor the byte into the state, multiply by the prime with wraparound. -/
def fnvUpdate (h b : Nat) : Nat := ((h ^^^ b % 256) * fnvPrime) % 2 ^ 64

/-- `Hasher::write` of `FnvHasher`: fold `fnvUpdate` over the bytes. -/
def fnvWrite (h : Nat) (bytes : List Nat) : Nat := bytes.foldl fnvUpdate h

/-- Modelled from the spec: `RouteKey::hash` lives in the external protocol
crate (spec §1: the serialization layer exposes `route_key()`; §6: the
route hash is FNV-1a-64 of the route key). It receives the connection's
hasher by mutable reference, writes the key's bytes, and returns
`finish()`, i.e. the hasher's current 64-bit state; the std `Hasher` trait
offers only `write` and `finish`, so the call leaves the written bytes in
the hasher's state. Returns (hash value, updated hasher state). -/
def routeKeyHash (hasher : Nat) (key : List Nat) : Nat × Nat :=
  let h := fnvWrite hasher key
  (h, h)

/-- A routable message as `route()` consumes it: its optional route key
(`Routable::route_key`, `none` for "any shard") and the byte result of
serializing the built request (`write_to_bytes`; `none` = serialization
failure). -/
structure RMsg where
  route_key : Option (List Nat)
  serialized : Option Frame
deriving DecidableEq, Repr

/-- `BrokerConn` (routing.rs lines 40-43): REQ socket plus its own
`FnvHasher`; the socket is modelled by its outbound frame log. -/
structure BrokerConn where
  hasher : Nat
  out : SendLog
deriving DecidableEq, Repr

/-- `BrokerConn::new` (routing.rs lines 52-61): fresh socket log,
`FnvHasher::default()`. -/
def BrokerConn.new : BrokerConn := { hasher := fnvOffsetBasis, out := [] }

/-- `BrokerConn::route` (routing.rs lines 82-89): compute
`route_hash = msg.route_key().map(|key| key.hash(&mut self.hasher))`, build
and serialize the request, `unwrap()` the serialization (panic on failure),
then send `"RQ"` with SNDMORE and the bytes as final frame. Returns the
updated connection and the route hash it put in the header. -/
def BrokerConn.route (c : BrokerConn) (m : RMsg) : Outcome (BrokerConn × Option Nat) :=
  let p : Option Nat × Nat :=
    match m.route_key with
    | some key =>
      let r := routeKeyHash c.hasher key
      (some r.1, r.2)
    | none => (none, c.hasher)
  match m.serialized with
  | some bytes =>
    Outcome.ok ({ hasher := p.2, out := c.out ++ [(tagRQ, true), (bytes, false)] }, p.1)
  | none => Outcome.panicked

/-- `RouteConn`'s routing-relevant state (server.rs lines 348-353): DEALER
socket plus its own `FnvHasher`, socket modelled by its outbound log. -/
structure RouteConnState where
  hasher : Nat
  out : SendLog
deriving DecidableEq, Repr

/-- Fresh `RouteConn` hasher state (`FnvHasher::default()`, server.rs
line 366). -/
def RouteConnState.new : RouteConnState := { hasher := fnvOffsetBasis, out := [] }

/-- `RouteConn::route` (server.rs lines 391-397): same hash computation as
`BrokerConn::route`, but the serialization result goes through `try!`, so a
failure is returned as `Err` (a protobuf error, spec kind ParseFailure),
and the single body frame is sent without a tag. -/
def RouteConnState.route (c : RouteConnState) (m : RMsg) :
    Outcome (RouteConnState × Option Nat) :=
  let p : Option Nat × Nat :=
    match m.route_key with
    | some key =>
      let r := routeKeyHash c.hasher key
      (some r.1, r.2)
    | none => (none, c.hasher)
  match m.serialized with
  | some bytes =>
    Outcome.ok ({ hasher := p.2, out := c.out ++ [(bytes, false)] }, p.1)
  | none => Outcome.err NetError.ParseFailure

/-- `RouteConn::recv` (server.rs lines 385-389): receive a frame and
`parse_from_bytes(&envelope).unwrap()` — a parse failure panics. `parse`
abstracts the protobuf decoder. -/
def RouteConnState.recv (received : Frame) (parse : Frame → Option Msg) : Outcome Msg :=
  match parse received with
  | some m => Outcome.ok m
  | none => Outcome.panicked

/-- `BrokerConn::recv` (routing.rs lines 99-103): receive a frame and
decode it through `try!`, so a parse failure is an `Err`. -/
def BrokerConn.recv (received : Frame) (parse : Frame → Option Msg) : Outcome Msg :=
  match parse received with
  | some m => Outcome.ok m
  | none => Outcome.err NetError.ParseFailure

/-! ### Server registry entries (`ServerReg`, server.rs lines 298-346) -/

/-- `ServerReg` (server.rs lines 298-308): endpoint identity, liveness
flag, next-ping deadline, and expiry deadline (both in clock
milliseconds). -/
structure ServerReg where
  endpoint : String
  alive : Bool
  ping_at : Int
  expires : Int
deriving Repr

/-- `ServerReg::new` (server.rs lines 311-319); `now_ms` is the
`clock_time()` reading at construction. -/
def ServerReg.new (endpoint : String) (now_ms : Int) : ServerReg :=
  { endpoint := endpoint
    alive := false
    ping_at := now_ms + PING_INTERVAL
    expires := now_ms + SERVER_TTL }

/-- The serialized `Ping` header sent by `ServerReg::ping`
(`protocol::Message::new(&Ping::new()).build()` then `write_to_bytes`; a
fresh `Ping` has no required fields so serialization succeeds). The exact
bytes are external; modelled as a fixed non-empty frame. -/
def pingFrame : Frame := [1]

/-- `ServerReg::ping` (server.rs lines 326-336): read the clock (`now_ms`);
if `now_ms >= ping_at`, serialize and send one `Ping` header, then set
`ping_at` from a second clock reading (`now2_ms`) plus `PING_INTERVAL`;
otherwise do nothing. Returns the updated entry and the frames sent on the
heartbeat socket. -/
def ServerReg.ping (r : ServerReg) (now_ms now2_ms : Int) : ServerReg × List Frame :=
  if now_ms ≥ r.ping_at then
    ({ r with ping_at := now2_ms + PING_INTERVAL }, [pingFrame])
  else (r, [])

/-- `impl PartialEq for ServerReg` (server.rs lines 339-346): two entries
are equal exactly when their endpoints match; `alive`, `ping_at` and
`expires` are ignored. -/
def ServerReg.eq (a b : ServerReg) : Bool := a.endpoint == b.endpoint

/-- Byte stream a `Hash` implementation feeds for a string field: the
string's bytes followed by the `0xff` terminator byte (`impl Hash for
str`). Endpoints are ASCII identities, so code points are the UTF-8
bytes. -/
def strHashBytes (s : String) : List Nat := s.data.map Char.toNat ++ [255]

/-- Byte stream fed for an `i64` field: its 8 bytes, two's complement,
little-endian (`write_i64` / `to_ne_bytes` on a little-endian machine). -/
def i64HashBytes (n : Int) : List Nat :=
  (List.range 8).map (fun i => (n % 2 ^ 64).toNat / 256 ^ i % 256)

/-- The byte stream `#[derive(Hash)]` on `ServerReg` (server.rs line 298)
feeds to the hasher: every field in declaration order — `endpoint`,
`alive` (one byte), `ping_at`, `expires`. -/
def ServerReg.hashBytes (r : ServerReg) : List Nat :=
  strHashBytes r.endpoint ++ [if r.alive then 1 else 0] ++
    i64HashBytes r.ping_at ++ i64HashBytes r.expires

/-- The 64-bit hash of a `ServerReg` under the derived `Hash`, instantiated
with the FNV-1a hasher available in the crate (any deterministic hasher of
the fed byte stream exhibits the same agreements and disagreements). -/
def ServerReg.fnvHash (r : ServerReg) : Nat := fnvWrite fnvOffsetBasis r.hashBytes

/-! ### Supervisor worker spawning (server.rs lines 463-479) -/

/-- `Vec::remove(i)` (std): panics when `i` is out of bounds, otherwise
returns the vector without its `i`-th element. -/
def vecRemove (l : List Nat) (i : Nat) : Outcome (List Nat) :=
  if i < l.length then Outcome.ok (l.take i ++ l.drop (i + 1))
  else Outcome.panicked

/-- `Supervisor::spawn_worker` (server.rs lines 463-479), its effect on the
`workers` vector of readiness receivers (receivers modelled as numbers
`rx`): when the rendezvous `rx.recv()` succeeds (`ready = true`) the
receiver is pushed; otherwise the branch runs
`self.workers.remove(worker_id)` with no bounds check. -/
def spawn_worker (workers : List Nat) (worker_id : Nat) (ready : Bool) (rx : Nat) :
    Outcome (List Nat) :=
  if ready then Outcome.ok (workers ++ [rx])
  else vecRemove workers worker_id

/-- A body decoder accepting every frame, decoding it as a message whose
body is the frame itself (stands in for `parse_from_bytes` on bytes that
happen to decode). -/
def parseAny : Frame → Option Msg :=
  fun f => some { message_id := "", body := f, route_info := RouteInfo.new }

/-- A body decoder that decodes only the frame `[9, 9]` and rejects
everything else (stands in for `parse_from_bytes` when `[9, 9]` is the one
well-formed body on the wire). -/
def parseOnly99 : Frame → Option Msg :=
  fun f => if f = [9, 9] then some { message_id := "", body := f, route_info := RouteInfo.new }
           else none

/-- The ASCII bytes of the route key `"alpha"`. -/
def alphaKey : List Nat := [97, 108, 112, 104, 97]

/-- A routable message with route key `"alpha"` whose serialization
succeeds. -/
def alphaMsg : RMsg := { route_key := some alphaKey, serialized := some [0] }

/-! ### Theorems -/

/-- One `add_hop` call never pushes the hop count past `MAX_HOPS`. -/
theorem add_hop_preserves_bound (e : Envelope) (hop : Frame)
    (h : e.hops.length ≤ MAX_HOPS) :
    ((e.add_hop hop).1).hops.length ≤ MAX_HOPS := by
  unfold Envelope.add_hop Envelope.max_hops
  by_cases hc : MAX_HOPS ≤ e.hops.length
  · simpa [hc] using h
  · simp [hc, List.length_append]
    omega

/-- Any sequence of `add_hop` calls preserves the hop bound. -/
theorem addHops_length_le (hs : List Frame) (e : Envelope)
    (h : e.hops.length ≤ MAX_HOPS) :
    ((e.addHops hs)).hops.length ≤ MAX_HOPS := by
  induction hs generalizing e with
  | nil => simpa [Envelope.addHops] using h
  | cons a t ih =>
    have : e.addHops (a :: t) = ((e.add_hop a).1).addHops t := by
      simp [Envelope.addHops]
    rw [this]
    exact ih _ (add_hop_preserves_bound e a h)

/-- C4: `len(hops) ≤ MAX_HOPS = 8` holds after construction (the default
per-worker constructor) and after every sequence of `add_hop` calls:
`add_hop` appends the frame and returns no error when the current length is
strictly below 8, and returns `Err(MaxHops)` leaving the envelope unchanged
exactly when the current length is at least 8. -/
theorem envelope_add_hop_bound (e : Envelope) (hop : Frame) :
    (e.hops.length < MAX_HOPS →
      e.add_hop hop = ({ e with hops := e.hops ++ [hop] }, none)) ∧
    (MAX_HOPS ≤ e.hops.length →
      e.add_hop hop = (e, some NetError.MaxHops)) ∧
    Envelope.default.hops.length ≤ MAX_HOPS ∧
    ∀ hs : List Frame, ((Envelope.default).addHops hs).hops.length ≤ MAX_HOPS := by
  refine ⟨?_, ?_, ?_, ?_⟩
  · intro h
    simp [Envelope.add_hop, Envelope.max_hops, Nat.not_le.mpr h]
  · intro h
    simp [Envelope.add_hop, Envelope.max_hops, h]
  · simp [Envelope.default]
  · intro hs
    exact addHops_length_le hs Envelope.default (by simp [Envelope.default])

/-- Concrete instance of `envelope_add_hop_bound`: a fresh envelope accepts
a hop, and even nine attempted `add_hop` calls leave at most 8 hops. -/
theorem envelope_add_hop_bound_witness :
    Envelope.default.add_hop [7] = ({ Envelope.default with hops := [[7]] }, none) ∧
    ((Envelope.default).addHops (List.replicate 9 [7])).hops.length ≤ MAX_HOPS := by
  refine ⟨(envelope_add_hop_bound Envelope.default [7]).1 (by decide),
          (envelope_add_hop_bound Envelope.default [7]).2.2.2 (List.replicate 9 [7])⟩

/-- C1: on an envelope whose `started` flag is still false, the first
`reply` or `reply_complete` call emits the stored hop frames in order, then
one empty delimiter frame, then the `"RP"` tag, then the payload, and sets
`started`; on an envelope with `started` already true, either call appends
only the payload frame — no hops, delimiter, or tag — and leaves the
envelope unchanged. -/
theorem envelope_reply_hop_prefix (e : Envelope) (out : SendLog) (payload : Frame)
    (h : e.started = false) :
    (e.reply out payload).2 =
      out ++ e.hops.map (fun hp => (hp, true)) ++
        [(([] : Frame), true), (tagRP, true), (payload, true)] ∧
    (e.reply out payload).1.started = true ∧
    (e.reply out payload).1.hops = e.hops ∧
    (e.reply_complete out payload).2 =
      out ++ e.hops.map (fun hp => (hp, true)) ++
        [(([] : Frame), true), (tagRP, true), (payload, false)] ∧
    (e.reply_complete out payload).1.started = true ∧
    ∀ e2 : Envelope, e2.started = true →
      (e2.reply out payload).2 = out ++ [(payload, true)] ∧
      (e2.reply out payload).1 = e2 ∧
      (e2.reply_complete out payload).2 = out ++ [(payload, false)] ∧
      (e2.reply_complete out payload).1 = e2 := by
  refine ⟨?_, ?_, ?_, ?_, ?_, ?_⟩
  · simp [Envelope.reply, Envelope.send_header, h]
  · simp [Envelope.reply, Envelope.send_header, h]
  · simp [Envelope.reply, Envelope.send_header, h]
  · simp [Envelope.reply_complete, Envelope.send_header, h]
  · simp [Envelope.reply_complete, Envelope.send_header, h]
  · intro e2 h2
    refine ⟨?_, ?_, ?_, ?_⟩ <;>
      simp [Envelope.reply, Envelope.reply_complete, Envelope.send_header, h2]

/-- Concrete instance of `envelope_reply_hop_prefix`: an envelope holding
hops `[[1], [2]]` replies with exactly those hops, the delimiter, `"RP"`,
and the payload. -/
theorem envelope_reply_hop_prefix_witness :
    (({ msg := Msg.new, hops := [[1], [2]], started := false } : Envelope).reply [] [9]).2 =
      [([1], true), ([2], true), (([] : Frame), true), (tagRP, true), ([9], true)] := by
  have h := envelope_reply_hop_prefix
    { msg := Msg.new, hops := [[1], [2]], started := false } [] [9] rfl
  simpa using h.1

/-- In the hop phase, a run of non-empty frames that would push the hop
count past `MAX_HOPS` makes the worker warn and break the outer `'recv`
loop, whatever frames follow. -/
theorem dispatchLoop_hops_overflow (parse : Frame → Option Msg) (hs : List Frame)
    (rest : List Frame) (e : Envelope) (hne : ∀ f ∈ hs, f.length ≠ 0)
    (hcount : e.hops.length + hs.length = MAX_HOPS + 1)
    (hbound : e.hops.length ≤ MAX_HOPS) :
    dispatchLoop parse e Phase.hops (hs ++ rest) =
      ([WorkerEvent.warnedMaxHops], true) := by
  induction hs generalizing e with
  | nil => simp at hcount; omega
  | cons a t ih =>
    have ha : a.length ≠ 0 := hne a (by simp)
    rw [List.cons_append, dispatchLoop]
    simp only [ha, if_neg ha]
    by_cases hc : MAX_HOPS ≤ e.hops.length
    · have : e.add_hop a = (e, some NetError.MaxHops) := by
        simp [Envelope.add_hop, Envelope.max_hops, hc]
      rw [this]
      simp
    · have hlt : e.hops.length < MAX_HOPS := Nat.lt_of_not_le hc
      have : e.add_hop a = ({ e with hops := e.hops ++ [a] }, none) := by
        simp [Envelope.add_hop, Envelope.max_hops, hc]
      rw [this]
      have hcount' : e.hops.length + t.length = MAX_HOPS := by
        simp at hcount
        omega
      exact ih { e with hops := e.hops ++ [a] }
        (fun f hf => hne f (List.mem_cons_of_mem a hf))
        (by simp
            omega)
        (by simp
            omega)

/-- C2 counterexample: a stream of nine non-empty hop frames followed by a
well-formed delimiter and body and then a complete second request
(delimiter plus body `[6]`). The worker emits only the max-hops warning and
exits its `'recv` loop (flag `true`: the socket is closed and the worker
returns); the second request is never dispatched, refuting "resumes reading
so that the next request is processed normally by the same worker". -/
theorem dispatcher_maxhops_counterexample :
    dispatcherRun parseAny (List.replicate 9 [7] ++ [[], [5], [], [6]]) =
      ([WorkerEvent.warnedMaxHops], true) ∧
    dispatcherRun parseAny [[], [6]] =
      ([WorkerEvent.dispatched []
          { message_id := "", body := [6], route_info := RouteInfo.new }], false) := by
  exact ⟨rfl, rfl⟩

/-- C2 (amended): when an inbound frame stream would accumulate more than
`MAX_HOPS = 8` hop frames before the empty delimiter, the worker logs the
warning, resets the envelope, and breaks the outer `'recv` loop: it stops
reading, so nothing after the offending frames — in particular the next
request — is processed by this worker (the worker thread returns and the
supervisor must respawn it). -/
theorem dispatcher_maxhops_breaks_recv_loop (parse : Frame → Option Msg)
    (hs rest : List Frame) (hlen : hs.length = MAX_HOPS + 1)
    (hne : ∀ f ∈ hs, f.length ≠ 0) :
    dispatcherRun parse (hs ++ rest) = ([WorkerEvent.warnedMaxHops], true) := by
  exact dispatchLoop_hops_overflow parse hs rest Envelope.default hne
    (by simp [Envelope.default, hlen]) (by simp [Envelope.default])

/-- Concrete instance of `dispatcher_maxhops_breaks_recv_loop`: nine
one-byte hop frames alone already end the worker with the warning. -/
theorem dispatcher_maxhops_breaks_recv_loop_witness :
    dispatcherRun parseAny (List.replicate 9 [7] ++ [[], [5]]) =
      ([WorkerEvent.warnedMaxHops], true) :=
  dispatcher_maxhops_breaks_recv_loop parseAny (List.replicate 9 [7]) [[], [5]]
    (by decide) (by decide)

/-- C5: the worker loop receives exactly one frame after the empty
delimiter and decodes it as the body, so on the wire layout
`[hop][""]["RQ"][body]` the `"RQ"` tag frame itself is decoded as the body:
with a decoder that accepts anything, the dispatched message's body is the
tag bytes and the true body `[9, 9]` is never dispatched; with the
realistic decoder that only accepts `[9, 9]`, the worker warns on the tag
frame and the true body is then consumed as a hop frame of the next
envelope, never as a body. -/
theorem dispatcher_decodes_tag_frame_as_body :
    dispatcherRun parseAny [[3], [], tagRQ, [9, 9]] =
      ([WorkerEvent.dispatched [[3]]
          { message_id := "", body := tagRQ, route_info := RouteInfo.new }], false) ∧
    dispatcherRun parseOnly99 [[3], [], tagRQ, [9, 9]] =
      ([WorkerEvent.warnedParse], false) := by
  exact ⟨rfl, rfl⟩

/-- C3: the connection's hasher is a persistent field passed to
`RouteKey::hash` by mutable reference and never reset (the std `Hasher`
interface has no reset), so identical route keys do NOT produce identical
`route_hash` values across call orders. On a fresh `BrokerConn` the first
`route()` with key `"alpha"` yields FNV-1a-64 of `"alpha"`
(9999721509958787115); the second `route()` with the very same key on the
same connection yields FNV-1a-64 of `"alpha"` continued from that state
(8324892589203861469), a different hash. A fresh `RouteConn` agrees with a
fresh `BrokerConn` only because both start from the FNV offset basis. -/
theorem broker_route_hash_not_deterministic :
    BrokerConn.new.route alphaMsg =
      Outcome.ok ({ hasher := 9999721509958787115,
                    out := [(tagRQ, true), ([0], false)] }, some 9999721509958787115) ∧
    ({ hasher := 9999721509958787115,
       out := [(tagRQ, true), ([0], false)] } : BrokerConn).route alphaMsg =
      Outcome.ok ({ hasher := 8324892589203861469,
                    out := [(tagRQ, true), ([0], false), (tagRQ, true), ([0], false)] },
                  some 8324892589203861469) ∧
    RouteConnState.new.route alphaMsg =
      Outcome.ok ({ hasher := 9999721509958787115,
                    out := [([0], false)] }, some 9999721509958787115) ∧
    fnvWrite fnvOffsetBasis alphaKey = 9999721509958787115 ∧
    (9999721509958787115 : Nat) ≠ 8324892589203861469 := by
  refine ⟨by decide, by decide, by decide, by decide, by decide⟩

/-- C6 counterexample: `BrokerConn::route` unwraps the serialization
result, so a message whose serialization fails makes it panic rather than
return an error `Result`; likewise `RouteConn::recv` unwraps the body
parse, so an unparsable received frame makes it panic. `Outcome.panicked`
is a constructor distinct from every `Outcome.err`. -/
theorem broker_route_panics_on_serialization_failure :
    BrokerConn.new.route { route_key := some [97], serialized := none } =
      Outcome.panicked ∧
    RouteConnState.recv [1, 2, 3] (fun _ => none) = Outcome.panicked := by
  exact ⟨rfl, rfl⟩

/-- C6 (amended): fallible operations at the core boundary do not all
return explicit outcomes: `BrokerConn::route` panics (unwrap) on a
message-serialization failure and `RouteConn::recv` panics (unwrap) on a
body-parse failure, while `RouteConn::route` returns the serialization
failure as an error `Result` and `BrokerConn::recv` returns the parse
failure as an error `Result`. -/
theorem route_recv_explicit_outcomes (c : BrokerConn) (rc : RouteConnState)
    (m : RMsg) (hm : m.serialized = none) (f : Frame)
    (parse : Frame → Option Msg) (hp : parse f = none) :
    c.route m = Outcome.panicked ∧
    rc.route m = Outcome.err NetError.ParseFailure ∧
    RouteConnState.recv f parse = Outcome.panicked ∧
    BrokerConn.recv f parse = Outcome.err NetError.ParseFailure := by
  refine ⟨?_, ?_, ?_, ?_⟩
  · simp [BrokerConn.route, hm]
  · simp [RouteConnState.route, hm]
  · simp [RouteConnState.recv, hp]
  · simp [BrokerConn.recv, hp]

/-- Concrete instance of `route_recv_explicit_outcomes` on a fresh
connection, a message that fails to serialize, and a decoder rejecting the
frame `[5]`. -/
theorem route_recv_explicit_outcomes_witness :
    BrokerConn.new.route { route_key := none, serialized := none } =
      Outcome.panicked ∧
    RouteConnState.new.route { route_key := none, serialized := none } =
      Outcome.err NetError.ParseFailure ∧
    RouteConnState.recv [5] (fun _ => none) = Outcome.panicked ∧
    BrokerConn.recv [5] (fun _ => none) = Outcome.err NetError.ParseFailure :=
  route_recv_explicit_outcomes BrokerConn.new RouteConnState.new
    { route_key := none, serialized := none } rfl [5] (fun _ => none) rfl

/-- C7 counterexample: the entry created at clock 0 satisfies
`ping_at = 2000 < 6000 = expires`, but a `ping()` whose clock readings are
4000 advances `ping_at` to `4000 + 2000 = 6000 = expires`, so `ping()` does
not preserve `ping_at < expires` for every clock value. -/
theorem serverreg_ping_can_reach_expiry :
    (ServerReg.new "svc" 0).ping_at < (ServerReg.new "svc" 0).expires ∧
    ¬((((ServerReg.new "svc" 0).ping 4000 4000).1).ping_at <
      (((ServerReg.new "svc" 0).ping 4000 4000).1).expires) := by
  exact ⟨by decide, by decide⟩

/-- C7 (amended): `ping_at < expires` is established by `ServerReg::new`
for every creation time, and is preserved by `ping()` when no ping is due
(`now < ping_at`) or when the clock reading used for the advance satisfies
`now + PING_INTERVAL < expires` (the entry is pinged before entering its
final `PING_INTERVAL`-wide window before expiry, e.g. while inbound traffic
keeps `expires` refreshed); a ping in that final window pushes `ping_at` to
or past `expires`. -/
theorem serverreg_ping_invariant_conditional (endpoint : String) (now : Int)
    (r : ServerReg) (n1 n2 : Int) (hr : r.ping_at < r.expires)
    (h : n1 < r.ping_at ∨ n2 + PING_INTERVAL < r.expires) :
    (ServerReg.new endpoint now).ping_at < (ServerReg.new endpoint now).expires ∧
    ((r.ping n1 n2).1).ping_at < ((r.ping n1 n2).1).expires := by
  constructor
  · simp [ServerReg.new, PING_INTERVAL, SERVER_TTL]
  · unfold ServerReg.ping
    by_cases hc : n1 ≥ r.ping_at
    · rcases h with h1 | h2
      · omega
      · simp [hc]
        omega
    · simp [hc]
      exact hr

/-- Concrete instance of `serverreg_ping_invariant_conditional`: the entry
created at clock 0, pinged with both clock readings 2000, keeps
`ping_at = 4000 < 6000 = expires`. -/
theorem serverreg_ping_invariant_conditional_witness :
    ((((ServerReg.new "svc" 0).ping 2000 2000).1).ping_at <
      (((ServerReg.new "svc" 0).ping 2000 2000).1).expires) :=
  (serverreg_ping_invariant_conditional "svc" 0 (ServerReg.new "svc" 0) 2000 2000
    (by decide) (Or.inr (by decide))).2

/-- C8: `ping(socket)` with clock reading `now` (the code reads the clock
again for the advance; both readings are the call time here) sends exactly
one serialized `Ping` header and advances `ping_at` to
`now + PING_INTERVAL` if and only if `now ≥ ping_at`; when `now < ping_at`
it sends nothing and leaves `ping_at` unchanged; and in every case it
leaves `endpoint`, `alive`, and `expires` unchanged. -/
theorem serverreg_ping_effect (r : ServerReg) (now : Int) :
    ((r.ping now now).1).endpoint = r.endpoint ∧
    ((r.ping now now).1).alive = r.alive ∧
    ((r.ping now now).1).expires = r.expires ∧
    (((r.ping now now).2 = [pingFrame] ∧
        ((r.ping now now).1).ping_at = now + PING_INTERVAL) ↔ now ≥ r.ping_at) ∧
    (if now ≥ r.ping_at then
       (r.ping now now).2 = [pingFrame] ∧
         ((r.ping now now).1).ping_at = now + PING_INTERVAL
     else
       (r.ping now now).2 = [] ∧ ((r.ping now now).1).ping_at = r.ping_at) := by
  unfold ServerReg.ping
  by_cases hc : now ≥ r.ping_at
  · simp [hc]
  · simp [hc, pingFrame]

set_option maxRecDepth 4000 in
/-- C9: two `ServerReg` values with the same endpoint but different
`alive`, `ping_at`, `expires` are equal under the handwritten `PartialEq`,
yet the derived `Hash` feeds all four fields to the hasher, so the byte
streams it hashes differ and the resulting 64-bit hashes differ
(instantiated with the crate's FNV-1a hasher): hash does not agree with
equality, breaking dedup in hashed sets/maps. -/
theorem serverreg_equal_but_hash_differs :
    ServerReg.eq { endpoint := "svc", alive := false, ping_at := 2000, expires := 6000 }
      { endpoint := "svc", alive := true, ping_at := 0, expires := 0 } = true ∧
    ServerReg.hashBytes
        { endpoint := "svc", alive := false, ping_at := 2000, expires := 6000 } ≠
      ServerReg.hashBytes
        { endpoint := "svc", alive := true, ping_at := 0, expires := 0 } ∧
    ServerReg.fnvHash
        { endpoint := "svc", alive := false, ping_at := 2000, expires := 6000 } =
      18249005422771427506 ∧
    ServerReg.fnvHash
        { endpoint := "svc", alive := true, ping_at := 0, expires := 0 } =
      5005867651480876757 := by
  refine ⟨by decide, by decide, by decide, by decide⟩

/-- C10: `spawn_worker` appends the readiness receiver to the workers
vector on successful readiness, and on readiness failure executes
`workers.remove(worker_id)` with no bounds check, which panics
(out-of-bounds removal) whenever `worker_id ≥ workers.len()`. -/
theorem spawn_worker_out_of_bounds (workers : List Nat) (worker_id : Nat)
    (rx : Nat) (h : workers.length ≤ worker_id) :
    spawn_worker workers worker_id true rx = Outcome.ok (workers ++ [rx]) ∧
    spawn_worker workers worker_id false rx = Outcome.panicked := by
  constructor
  · rfl
  · simp [spawn_worker, vecRemove, Nat.not_lt.mpr h]

/-- Concrete instance of `spawn_worker_out_of_bounds`: the first worker
spawned during init (`worker_id = 0`, empty workers vector) failing to
start panics. -/
theorem spawn_worker_out_of_bounds_witness :
    spawn_worker [] 0 true 5 = Outcome.ok [5] ∧
    spawn_worker [] 0 false 5 = Outcome.panicked :=
  spawn_worker_out_of_bounds [] 0 5 (by decide)

end HabitatNet
